import Mathlib

/-!
Verification of the case-yellow-template-central repository against its
natural-language specification.

The repository contains three independent components:

1. `randompassword.c` — reads 12 bytes from /dev/urandom and prints a
   16-character password using a custom base64-like alphabet.
2. `parentalcontrolsd_terminator.sh` — a one-shot CPU watchdog that sends a
   graceful-then-forced termination signal sequence to one named process.
3. The AmazonConnections Electron notifier app (`main.js`, `config.js`,
   `requests.js`) — startup validation, a pipe/GUI readiness AND-join,
   a heartbeat liveness watchdog, and a shared delayed-exit funnel.

Each component is shallowly embedded below: machine integers become `Nat`
with explicit arithmetic, asynchronous callbacks become explicit
event-trace simulations, and process-level effects (signals, scheduled
exits, telemetry reports) become fields of explicit result records.
-/

/-! ## Part 1: randompassword.c

`encoding_table` is transcribed from lines 25-32 of randompassword.c.
The table deliberately avoids capital I, capital O, lower case l
(replaced by `+`, `-`, `*`) and the specials `/` and `$` (replaced by
`@` and `#`).
-/

def encoding_table : List Char :=
  ['A', 'B', 'C', 'D', 'E', 'F', 'G', 'H',
   '+', 'J', 'K', 'L', 'M', 'N', '-', 'P',
   'Q', 'R', 'S', 'T', 'U', 'V', 'W', 'X',
   'Y', 'Z', 'a', 'b', 'c', 'd', 'e', 'f',
   'g', 'h', 'i', 'j', 'k', '*', 'm', 'n',
   'o', 'p', 'q', 'r', 's', 't', 'u', 'v',
   'w', 'x', 'y', 'z', '0', '1', '2', '3',
   '4', '5', '6', '7', '8', '9', '@', '#']

/-- One iteration of the encoding loop (main.c lines 46-58): three octets are
packed into a 24-bit `triple` (the C `(octet_a << 0x10) + (octet_b << 0x08) +
octet_c`; the value is below 2^24 so no 32-bit overflow occurs), and four
six-bit groups `(triple >> 18) & 0x3F` … `(triple >> 0) & 0x3F` select four
symbols of `encoding_table`. Shifts and masks on these non-negative values
are division and remainder. -/
def encodeGroup (octet_a octet_b octet_c : Nat) : List Char :=
  let triple := octet_a * 65536 + octet_b * 256 + octet_c
  [encoding_table.getD (triple / 262144 % 64) 'A',
   encoding_table.getD (triple / 4096 % 64) 'A',
   encoding_table.getD (triple / 64 % 64) 'A',
   encoding_table.getD (triple % 64) 'A']

/-- The full encoding loop over the input buffer. The C loop consumes three
bytes per iteration; the guards `i < RNDBUFSIZ ? rbuf[i++] : 0` pad a final
short group with zero octets (never reached for the 12-byte buffer, whose
length is a multiple of 3). -/
def encodeBytes : List Nat → List Char
  | octet_a :: octet_b :: octet_c :: rest => encodeGroup octet_a octet_b octet_c ++ encodeBytes rest
  | [octet_a, octet_b] => encodeGroup octet_a octet_b 0
  | [octet_a] => encodeGroup octet_a 0 0
  | [] => []

/-- The program's output for a given 12-byte random buffer: the encoded
characters printed as a string (printf of the null-terminated pw buffer). -/
def randompassword (rbuf : List Nat) : String :=
  String.mk (encodeBytes rbuf)

/-- Spec-side description of one group of standard base64 bit-packing
(spec section 4.2: "3 bytes → 4 six-bit groups → 4 symbols"): the four
six-bit groups of three bytes, written byte-wise as in RFC 4648. Used only
to compare the source encoding against the spec's wording. -/
def specSixBitGroups (b0 b1 b2 : Nat) : List Nat :=
  [b0 / 4, b0 % 4 * 16 + b1 / 16, b1 % 16 * 4 + b2 / 64, b2 % 64]

/-- Spec-side standard base64 bit-packing over the custom alphabet
(no padding; input length is a multiple of 3). -/
def specBase64Encode : List Nat → List Char
  | b0 :: b1 :: b2 :: rest =>
      (specSixBitGroups b0 b1 b2).map (fun g => encoding_table.getD g 'A')
        ++ specBase64Encode rest
  | _ => []

/-- Index of a symbol in the encoding table; proof-side inverse of the
table lookup used to show the encoding is injective. -/
def sixBitIndex (ch : Char) : Nat :=
  encoding_table.indexOf ch

/-- Proof-side decoder: reassembles each 24-bit triple from four symbol
indices and splits it back into three octets. -/
def decodeChars : List Char → List Nat
  | ch0 :: ch1 :: ch2 :: ch3 :: rest =>
      let triple := sixBitIndex ch0 * 262144 + sixBitIndex ch1 * 4096 +
        sixBitIndex ch2 * 64 + sixBitIndex ch3
      triple / 65536 % 256 :: triple / 256 % 256 :: triple % 256 :: decodeChars rest
  | _ => []

/-! ## Part 2: parentalcontrolsd_terminator.sh

The script is a one-shot check: look up the process, compare its CPU
reading (scaled to an integer number of hundredths of a percent by
`bc <<< $APP_CPU*100` followed by truncation) against
`CPU_LIMIT * 100`, and send `kill` then — after a 5-second grace sleep,
if the process is still found — `killall -9`. External observations
(pgrep results, the ps CPU reading) are the fields of `WatchdogEnv`. -/

def APP_NAME : String := "parentalcontrolsd"

def CPU_LIMIT : Nat := 5

def GRACE_PERIOD_SECONDS : Nat := 5

structure WatchdogEnv where
  processFound : Bool
  cpuCentiPercent : Nat
  stillRunningAfterGrace : Bool
deriving DecidableEq

structure WatchdogOutcome where
  exitCode : Nat
  sentTerm : Bool
  sentKill : Bool
  waitedSeconds : Nat
deriving DecidableEq

/-- Transcription of parentalcontrolsd_terminator.sh lines 10-38: absent
process exits 0 with no signal; CPU at or above the limit sends the graceful
signal, sleeps the grace period, and sends the forced signal only if the
process is still found; below the limit only a log line is written. The
script always ends with exit status 0 (the last command is a logger call). -/
def parentalcontrolsd_terminator (env : WatchdogEnv) : WatchdogOutcome :=
  if !env.processFound then
    { exitCode := 0, sentTerm := false, sentKill := false, waitedSeconds := 0 }
  else if CPU_LIMIT * 100 ≤ env.cpuCentiPercent then
    { exitCode := 0, sentTerm := true, sentKill := env.stillRunningAfterGrace,
      waitedSeconds := GRACE_PERIOD_SECONDS }
  else
    { exitCode := 0, sentTerm := false, sentKill := false, waitedSeconds := 0 }

/-! ## Part 3: notifier app — config.js constants and stage resolution -/

def STAGES_ALPHA : String := "alpha"

def STAGES_INTEG : String := "integ"

def STAGES_GAMMA : String := "gamma"

def STAGES_PROD : String := "prod"

/-- WEBSITE_DOMAINS from config.js lines 72-78; the alpha entry embeds the
OS user name of the machine the app runs on. -/
def WEBSITE_DOMAINS (osUsername : String) : List (String × String) :=
  [(STAGES_ALPHA, "https://" ++ osUsername ++ ".aka.corp.amazon.com:8243/"),
   (STAGES_INTEG, "https://cdws-sln-pdx-d.integ.amazon.com/"),
   (STAGES_GAMMA, "https://connections-cdw-gamma.aka.amazon.com/"),
   (STAGES_PROD, "https://connections-cdw-prod.aka.amazon.com/")]

/-- VALID_STAGES_LIST = Object.keys(WEBSITE_DOMAINS) (config.js line 79). -/
def VALID_STAGES_LIST : List String :=
  [STAGES_ALPHA, STAGES_INTEG, STAGES_GAMMA, STAGES_PROD]

/-- The hasOwnProperty check of config.setStage (config.js line 127):
whether `stage` is a key of WEBSITE_DOMAINS (case-sensitive exact match). -/
def hasStageKey (osUsername stage : String) : Bool :=
  ((WEBSITE_DOMAINS osUsername).map Prod.fst).contains stage

/-- config.setStage (config.js lines 126-132): store the stage, or throw
IllegalArgumentException (modelled as `Except.error`) when the stage is not
a WEBSITE_DOMAINS key. -/
def setStage (osUsername stage : String) : Except String String :=
  if hasStageKey osUsername stage then Except.ok stage
  else Except.error ("Invalid stage passed: " ++ stage)

structure StageResolution where
  stage : String
  warnLines : Nat
  aborted : Bool
deriving DecidableEq

/-- The stage-argument handling of main.js lines 37-62: try setStage; on
IllegalArgumentException record a warning message and default to
STAGES.PROD; after the logger is configured, `logger.warn(stageWarningMsg)`
runs once exactly when the warning message is non-empty. Any other thrown
error propagates (`aborted`; unreachable, since setStage only throws
IllegalArgumentException). -/
def resolveStageArg (osUsername rawStage : String) : StageResolution :=
  match setStage osUsername rawStage with
  | Except.ok s => { stage := s, warnLines := 0, aborted := false }
  | Except.error _ =>
      match setStage osUsername STAGES_PROD with
      | Except.ok s => { stage := s, warnLines := 1, aborted := false }
      | Except.error _ => { stage := "", warnLines := 1, aborted := true }

/-! ## Part 4: notifier app — exit funnel (main.js lines 424-452) -/

/-- How a termination is carried out: a delayed `process.exit(errorCode)`,
a delayed `app.quit()`, or a direct call to the immediate-terminate
primitive (which no path of the program performs). -/
inductive ExitMech
  | delayedExit (errorCode : Nat) (waitTime : Nat)
  | delayedQuit (waitTime : Nat)
  | immediateExit (errorCode : Nat)
deriving DecidableEq

/-- waitAndRun's default-argument workaround (main.js line 440):
`waitTime = typeof waitTime !== 'undefined' ? waitTime : 1000`. -/
def waitAndRunDelay (waitTime : Option Nat) : Nat :=
  waitTime.getD 1000

def DEFAULT_EXIT_WAIT : Nat := 1000

/-- waitAndExit (main.js lines 424-428): schedule `process.exit(errorCode)`
after the (defaulted) wait. -/
def waitAndExit (errorCode : Nat) (waitTime : Option Nat) : ExitMech :=
  ExitMech.delayedExit errorCode (waitAndRunDelay waitTime)

/-- waitAndQuit (main.js lines 432-436): schedule `app.quit()` after the
(defaulted) wait. -/
def waitAndQuit (waitTime : Option Nat) : ExitMech :=
  ExitMech.delayedQuit (waitAndRunDelay waitTime)

def PIPE_CONNECTION_ERROR : String := "DiscoAppException:PipeConnectionError"

def JADE_ERROR : String := "DiscoAppException:JadeFileError"

def HEALTH_CHECK_ERROR : String := "DiscoAppException:HealthCheckError"

def DISCO_APP_EXCEPTION : String := "DiscoAppException"

/-- reportErrorAndExit (main.js lines 447-452): report the named error,
then — whatever the report's outcome — waitAndExit(1) with no explicit
wait. -/
def reportErrorAndExit (eventName : String) : ExitMech :=
  waitAndExit 1 none

/-- The intentional process-termination paths of main.js named by the spec. -/
inductive TermPath
  | usernameValidation
  | pipeFailure
  | uiLoadFailure
  | healthCheckFailure
  | uncaughtException
  | explicitQuit
deriving DecidableEq

/-- The exit mechanism each termination path invokes, transcribed from its
call site in main.js: missing username → waitAndExit(1) (line 33);
pipe failure → reportErrorAndExit(PIPE_CONNECTION_ERROR) (line 229);
jade read failure → reportErrorAndExit(JADE_ERROR) (line 287); health-check
fire → reportErrorAndExit(HEALTH_CHECK_ERROR) (line 391); uncaught
exception → waitAndExit(1) in both the normal and the fallback branch
(lines 475, 478); ipc quit → waitAndQuit() (line 349). -/
def exitMechOf : TermPath → ExitMech
  | TermPath.usernameValidation => waitAndExit 1 none
  | TermPath.pipeFailure => reportErrorAndExit PIPE_CONNECTION_ERROR
  | TermPath.uiLoadFailure => reportErrorAndExit JADE_ERROR
  | TermPath.healthCheckFailure => reportErrorAndExit HEALTH_CHECK_ERROR
  | TermPath.uncaughtException => waitAndExit 1 none
  | TermPath.explicitQuit => waitAndQuit none

def exitDelayOf : ExitMech → Option Nat
  | ExitMech.delayedExit _ w => some w
  | ExitMech.delayedQuit w => some w
  | ExitMech.immediateExit _ => none

def isImmediate : ExitMech → Bool
  | ExitMech.immediateExit _ => true
  | _ => false

/-! ## Part 5: notifier app — pipe-connection failure handling
(main.js lines 111-147 and 226-230) -/

def ENOENT_CODE : String := "ENOENT"

def ETIMEDOUT_CODE : String := "ETIMEDOUT"

structure PipeErrorOutcome where
  pipeErrorEventReported : Bool
  resolvedReady : Bool
  rejected : Bool
  rethrown : Bool
  exits : List ExitMech
deriving DecidableEq

/-- The net.connect on-error callback (main.js lines 111-140): it first
adds and reports a PIPE_CONNECTION_ERROR client event unconditionally.
In developer mode, the causes ENOENT (no pipe server) and ETIMEDOUT are
tolerated and the promise resolves anyway; any other cause rejects and
rethrows. Outside developer mode every cause rejects and calls
waitAndExit(1) directly. -/
def pipeErrorHandler (isDeveloperMode : Bool) (errCode : String) : PipeErrorOutcome :=
  if isDeveloperMode then
    let noPipeServer := errCode == ENOENT_CODE
    let timedOut := errCode == ETIMEDOUT_CODE
    if !noPipeServer && !timedOut then
      { pipeErrorEventReported := true, resolvedReady := false,
        rejected := true, rethrown := true, exits := [] }
    else
      { pipeErrorEventReported := true, resolvedReady := true,
        rejected := false, rethrown := false, exits := [] }
  else
    { pipeErrorEventReported := true, resolvedReady := false,
      rejected := true, rethrown := false, exits := [waitAndExit 1 none] }

/-- The failure outcome including the downstream whenPipeConnected.catch
continuation (main.js lines 226-230): a rejection additionally runs
reportErrorAndExit(PIPE_CONNECTION_ERROR). -/
def whenPipeConnectedFailure (isDeveloperMode : Bool) (errCode : String) : PipeErrorOutcome :=
  let r := pipeErrorHandler isDeveloperMode errCode
  if r.rejected then { r with exits := r.exits ++ [reportErrorAndExit PIPE_CONNECTION_ERROR] }
  else r

/-! ## Part 6: notifier app — readiness AND-join (main.js lines 215-230)

The code is `whenPipeConnected.then(function() { whenAppReady.then(initApp) ... })`:
the continuation that attaches initApp to the app-ready promise only runs
once the pipe promise has resolved. A `.then` attached to an
already-resolved promise runs its callback; attaching before resolution
defers the callback to the resolution. `joinStep` is that machinery over
the two one-shot resolution events. -/

inductive RSignal
  | pipeResolve
  | appReady
deriving DecidableEq

structure JoinState where
  pipeDone : Bool
  appDone : Bool
  initAttached : Bool
  initRuns : Nat
deriving DecidableEq

def initialJoinState : JoinState :=
  { pipeDone := false, appDone := false, initAttached := false, initRuns := 0 }

def joinStep (s : JoinState) : RSignal → JoinState
  | RSignal.pipeResolve =>
      let s1 := { s with pipeDone := true, initAttached := true }
      if s1.appDone then { s1 with initRuns := s1.initRuns + 1 } else s1
  | RSignal.appReady =>
      let s1 := { s with appDone := true }
      if s1.initAttached then { s1 with initRuns := s1.initRuns + 1 } else s1

def joinRun (evs : List RSignal) : JoinState :=
  evs.foldl joinStep initialJoinState

/-! ## Part 7: notifier app — heartbeat liveness watchdog
(main.js lines 378-393, 412-419)

`hbSim` is a discrete-event simulation of the timer subsystem, with all
times in milliseconds from arming. The first argument `crashDelay` is the
time one crash-handling sequence takes from the crashCallback fire until
it reaches waitAndExit: the asynchronous completion of clearAppData's
clearStorageData → clearCache callbacks plus the settling of
reportErrorAndExit's HTTP promise (request-promise with no timeout), which
the code does not bound — so `crashDelay` is an arbitrary parameter, and
the exit a fire at time t schedules lands at
t + crashDelay + DEFAULT_EXIT_WAIT. The remaining arguments: the
(time-sorted) trace of incoming health-check-pulse events; the pending
crashCallback deadline (`none` once the timer has fired and no pulse has
rearmed it); the earliest scheduled `process.exit` time (`none` before
the first fire); and an accumulator counting started crash-handling
sequences. One crash-handling sequence — crashCallback running
clearAppData, reporting one HEALTH_CHECK_ERROR event batch, and
reportErrorAndExit scheduling one delayed exit — is counted as one unit.
The pulse handler (lines 416-419) always clears the current timeout and
rearms crashCallback at pulse time + HEALTH_CHECK_TIMEOUT, even after a
fire: crashCallback has no once-only guard. The process dies at the
earliest scheduled exit; events after it do not run. A timer callback due
at the same millisecond as a pulse runs before the pulse; a scheduled
exit due at the same millisecond as any later-armed timer wins. -/

def HEALTH_CHECK_INITIAL_TIMEOUT : Nat := 90000

def HEALTH_CHECK_TIMEOUT : Nat := 5000

def hbSim (crashDelay : Nat) : List Nat → Option Nat → Option Nat → Nat → Nat
  | [], none, _, crashes => crashes
  | [], some _, none, crashes => crashes + 1
  | [], some dl, some ex, crashes => if dl < ex then crashes + 1 else crashes
  | p :: ps, none, none, crashes =>
      hbSim crashDelay ps (some (p + HEALTH_CHECK_TIMEOUT)) none crashes
  | p :: ps, none, some ex, crashes =>
      if ex ≤ p then crashes
      else hbSim crashDelay ps (some (p + HEALTH_CHECK_TIMEOUT)) (some ex) crashes
  | p :: ps, some dl, none, crashes =>
      if dl ≤ p then
        if dl + crashDelay + DEFAULT_EXIT_WAIT ≤ p then crashes + 1
        else hbSim crashDelay ps (some (p + HEALTH_CHECK_TIMEOUT))
          (some (dl + crashDelay + DEFAULT_EXIT_WAIT)) (crashes + 1)
      else hbSim crashDelay ps (some (p + HEALTH_CHECK_TIMEOUT)) none crashes
  | p :: ps, some dl, some ex, crashes =>
      if ex ≤ dl then
        if ex ≤ p then crashes
        else hbSim crashDelay ps (some (p + HEALTH_CHECK_TIMEOUT)) (some ex) crashes
      else
        if dl ≤ p then
          if min ex (dl + crashDelay + DEFAULT_EXIT_WAIT) ≤ p then crashes + 1
          else hbSim crashDelay ps (some (p + HEALTH_CHECK_TIMEOUT))
            (some (min ex (dl + crashDelay + DEFAULT_EXIT_WAIT))) (crashes + 1)
        else hbSim crashDelay ps (some (p + HEALTH_CHECK_TIMEOUT)) (some ex) crashes

/-! ## Part 8: notifier app — startup username validation (main.js lines 22-35)

The check `if (!username)` treats a missing argument and an empty string
alike (JavaScript falsiness). Its body reports a USERNAME_NOT_FOUND client
event, writes the usage string to stderr and calls waitAndExit(1) — and
then, having no return statement, falls through to the rest of the
script, which keeps registering the readiness continuations. -/

def usage : String :=
  "usage: [--username | -u <value>] [--dev | -d] [--stage | -s <value>] [--pipeuuid | -p <value>]\n"

def truthyArg : Option String → Bool
  | none => false
  | some s => !(s == "")

structure UsernameCheckResult where
  usernameEventReported : Bool
  usageWritten : Bool
  exitScheduled : Option ExitMech
  continuedStartup : Bool
deriving DecidableEq

def usernameCheck (username : Option String) : UsernameCheckResult :=
  if !truthyArg username then
    { usernameEventReported := true, usageWritten := true,
      exitScheduled := some (waitAndExit 1 none), continuedStartup := true }
  else
    { usernameEventReported := false, usageWritten := false,
      exitScheduled := none, continuedStartup := true }

/-- Whether window initialization (initApp) runs before a scheduled exit
fires, in a run where the pipe promise resolves immediately (not Windows,
or no pipe) and the GUI ready event fires at `appReadyTime` milliseconds
after launch: the startup continuations are in place because the script
ran to completion, so initApp runs at `appReadyTime` unless the process
already exited. -/
def initAppRunsBeforeExit (r : UsernameCheckResult) (appReadyTime : Nat) : Bool :=
  r.continuedStartup &&
    (match r.exitScheduled with
     | none => true
     | some m =>
         match exitDelayOf m with
         | none => false
         | some w => decide (appReadyTime < w))

/-! ## Scratch checks (evaluation of the models on concrete inputs) -/

example : randompassword (List.replicate 12 0) = "AAAAAAAAAAAAAAAA" := by decide

example : decodeChars (encodeBytes [0, 1, 2, 253, 254, 255]) = [0, 1, 2, 253, 254, 255] := by decide

example : encodeBytes [255, 255, 255] = ['#', '#', '#', '#'] := by decide

example : hbSim 0 [] (some HEALTH_CHECK_INITIAL_TIMEOUT) none 0 = 1 := by decide

example : hbSim 0 [80000, 84000, 95000] (some HEALTH_CHECK_INITIAL_TIMEOUT) none 0 = 1 := by decide

example : hbSim 10000 [90000] (some HEALTH_CHECK_INITIAL_TIMEOUT) none 0 = 2 := by decide

example : (joinRun [RSignal.pipeResolve, RSignal.appReady]).initRuns = 1 := by decide

example : (joinRun [RSignal.appReady, RSignal.pipeResolve]).initRuns = 1 := by decide

example : (joinRun [RSignal.appReady]).initRuns = 0 := by decide

example : resolveStageArg "gerritd" "Alpha" = { stage := "prod", warnLines := 1, aborted := false } := by decide

example : resolveStageArg "gerritd" "gamma" = { stage := "gamma", warnLines := 0, aborted := false } := by decide

/-! ## Lemmas: password encoding -/

theorem encodeGroup_eq_spec (a b c : Nat) (ha : a < 256) (hb : b < 256) (hc : c < 256) :
    encodeGroup a b c = (specSixBitGroups a b c).map (fun g => encoding_table.getD g 'A') := by
  have h1 : (a * 65536 + b * 256 + c) / 262144 % 64 = a / 4 := by omega
  have h2 : (a * 65536 + b * 256 + c) / 4096 % 64 = a % 4 * 16 + b / 16 := by omega
  have h3 : (a * 65536 + b * 256 + c) / 64 % 64 = b % 16 * 4 + c / 64 := by omega
  have h4 : (a * 65536 + b * 256 + c) % 64 = c % 64 := by omega
  simp only [encodeGroup, specSixBitGroups, List.map_cons, List.map_nil, h1, h2, h3, h4]

theorem encodeBytes_eq_spec : ∀ (bs : List Nat), (∀ x ∈ bs, x < 256) →
    bs.length % 3 = 0 → encodeBytes bs = specBase64Encode bs
  | [], _, _ => rfl
  | [a], _, h3 => by simp at h3
  | [a, b], _, h3 => by simp at h3
  | a :: b :: c :: rest, h, h3 => by
      have ha : a < 256 := h a (by simp)
      have hb : b < 256 := h b (by simp)
      have hc : c < 256 := h c (by simp)
      have hrest : ∀ x ∈ rest, x < 256 := fun x hx => h x (by simp [hx])
      have h3' : rest.length % 3 = 0 := by
        simp only [List.length_cons] at h3
        omega
      show encodeGroup a b c ++ encodeBytes rest = specBase64Encode (a :: b :: c :: rest)
      rw [encodeGroup_eq_spec a b c ha hb hc, encodeBytes_eq_spec rest hrest h3']
      rfl

theorem length_encodeBytes : ∀ (bs : List Nat), bs.length % 3 = 0 →
    (encodeBytes bs).length = bs.length / 3 * 4
  | [], _ => rfl
  | [a], h3 => by simp at h3
  | [a, b], h3 => by simp at h3
  | a :: b :: c :: rest, h3 => by
      have h3' : rest.length % 3 = 0 := by
        simp only [List.length_cons] at h3
        omega
      show (encodeGroup a b c ++ encodeBytes rest).length = _
      rw [List.length_append, length_encodeBytes rest h3']
      simp only [encodeGroup, List.length_cons, List.length_nil]
      omega

theorem getD_table_mem (n : Nat) : encoding_table.getD (n % 64) 'A' ∈ encoding_table := by
  have h : ∀ m, m < 64 → encoding_table.getD m 'A' ∈ encoding_table := by decide
  exact h (n % 64) (Nat.mod_lt n (by norm_num))

theorem encodeGroup_mem_table (a b c : Nat) :
    ∀ ch ∈ encodeGroup a b c, ch ∈ encoding_table := by
  intro ch hch
  simp only [encodeGroup, List.mem_cons, List.not_mem_nil, or_false] at hch
  rcases hch with h | h | h | h <;> (subst h; exact getD_table_mem _)

theorem encodeBytes_mem_table : ∀ (bs : List Nat), ∀ ch ∈ encodeBytes bs, ch ∈ encoding_table
  | [], ch, h => by simp [encodeBytes] at h
  | [a], ch, h => encodeGroup_mem_table a 0 0 ch (by simpa [encodeBytes] using h)
  | [a, b], ch, h => encodeGroup_mem_table a b 0 ch (by simpa [encodeBytes] using h)
  | a :: b :: c :: rest, ch, h => by
      have h' : ch ∈ encodeGroup a b c ++ encodeBytes rest := h
      rcases List.mem_append.mp h' with hg | hr
      · exact encodeGroup_mem_table a b c ch hg
      · exact encodeBytes_mem_table rest ch hr

theorem sixBitIndex_getD (n : Nat) (h : n < 64) :
    sixBitIndex (encoding_table.getD n 'A') = n := by
  have hall : ∀ m, m < 64 → sixBitIndex (encoding_table.getD m 'A') = m := by decide
  exact hall n h

theorem decode_encodeGroup (a b c : Nat) (ha : a < 256) (hb : b < 256) (hc : c < 256)
    (rest : List Char) :
    decodeChars (encodeGroup a b c ++ rest) = a :: b :: c :: decodeChars rest := by
  have h64 : ∀ n : Nat, n % 64 < 64 := fun n => Nat.mod_lt _ (by norm_num)
  simp only [encodeGroup, List.cons_append, List.nil_append, decodeChars]
  rw [sixBitIndex_getD _ (h64 _), sixBitIndex_getD _ (h64 _), sixBitIndex_getD _ (h64 _),
    sixBitIndex_getD _ (h64 _)]
  simp only [List.cons.injEq]
  refine ⟨by omega, by omega, by omega, rfl⟩

theorem decode_encodeBytes : ∀ (bs : List Nat), (∀ x ∈ bs, x < 256) →
    bs.length % 3 = 0 → decodeChars (encodeBytes bs) = bs
  | [], _, _ => rfl
  | [a], _, h3 => by simp at h3
  | [a, b], _, h3 => by simp at h3
  | a :: b :: c :: rest, h, h3 => by
      have ha : a < 256 := h a (by simp)
      have hb : b < 256 := h b (by simp)
      have hc : c < 256 := h c (by simp)
      have hrest : ∀ x ∈ rest, x < 256 := fun x hx => h x (by simp [hx])
      have h3' : rest.length % 3 = 0 := by
        simp only [List.length_cons] at h3
        omega
      show decodeChars (encodeGroup a b c ++ encodeBytes rest) = _
      rw [decode_encodeGroup a b c ha hb hc, decode_encodeBytes rest hrest h3']

/-! ## Claim theorems: password generator -/

/-- C4: The password encoding is a pure deterministic function of its 12
input bytes: on any fixed 12-byte input it agrees with standard base64
bit-packing (3 bytes → 4 six-bit groups → 4 symbols) over the custom
alphabet and yields a 16-character output, and the input of 12 zero bytes
encodes to exactly "AAAAAAAAAAAAAAAA". -/
theorem password_encoding_pure_base64 :
    (∀ rbuf : List Nat, rbuf.length = 12 → (∀ x ∈ rbuf, x < 256) →
      randompassword rbuf = String.mk (specBase64Encode rbuf) ∧
      (randompassword rbuf).length = 16) ∧
    randompassword (List.replicate 12 0) = "AAAAAAAAAAAAAAAA" := by
  constructor
  · intro rbuf hlen hbytes
    have h3 : rbuf.length % 3 = 0 := by omega
    constructor
    · unfold randompassword
      rw [encodeBytes_eq_spec rbuf hbytes h3]
    · show (String.mk (encodeBytes rbuf)).length = 16
      have : (encodeBytes rbuf).length = 16 := by
        rw [length_encodeBytes rbuf h3, hlen]
      simpa [String.length] using this
  · decide

/-- C4 witness: the theorem applied at the concrete all-zero 12-byte input. -/
theorem password_encoding_pure_base64_witness :
    randompassword (List.replicate 12 0) =
      String.mk (specBase64Encode (List.replicate 12 0)) ∧
    (randompassword (List.replicate 12 0)).length = 16 :=
  password_encoding_pure_base64.1 (List.replicate 12 0) (by decide) (by decide)

/-- C9: every character the encoder emits belongs to the 64-symbol
alphabet, and the alphabet holds 64 distinct symbols, none of which is
capital I, capital O, lower case l, slash or dollar. -/
theorem password_alphabet_sound :
    (encoding_table.length = 64 ∧ encoding_table.Nodup ∧
      'I' ∉ encoding_table ∧ 'O' ∉ encoding_table ∧ 'l' ∉ encoding_table ∧
      '/' ∉ encoding_table ∧ '$' ∉ encoding_table) ∧
    ∀ (rbuf : List Nat), ∀ ch ∈ encodeBytes rbuf, ch ∈ encoding_table := by
  constructor
  · refine ⟨by decide, by decide, by decide, by decide, by decide, by decide, by decide⟩
  · exact encodeBytes_mem_table

/-- C9 witness: membership applied at a concrete input and output
character. -/
theorem password_alphabet_sound_witness : 'A' ∈ encoding_table :=
  password_alphabet_sound.2 [0, 0, 0] 'A' (by decide)

/-- C10: the password encoding is injective on 12-byte inputs — two
distinct 12-byte buffers never encode to the same output (the bytes are
recoverable from the output). -/
theorem password_encoding_injective :
    ∀ (rbuf1 rbuf2 : List Nat), rbuf1.length = 12 → rbuf2.length = 12 →
      (∀ x ∈ rbuf1, x < 256) → (∀ x ∈ rbuf2, x < 256) →
      randompassword rbuf1 = randompassword rbuf2 → rbuf1 = rbuf2 := by
  intro rbuf1 rbuf2 hl1 hl2 hb1 hb2 heq
  have h31 : rbuf1.length % 3 = 0 := by omega
  have h32 : rbuf2.length % 3 = 0 := by omega
  have hchars : encodeBytes rbuf1 = encodeBytes rbuf2 := by
    have := congrArg String.data heq
    simpa [randompassword] using this
  calc rbuf1 = decodeChars (encodeBytes rbuf1) := (decode_encodeBytes rbuf1 hb1 h31).symm
    _ = decodeChars (encodeBytes rbuf2) := by rw [hchars]
    _ = rbuf2 := decode_encodeBytes rbuf2 hb2 h32

/-- C10 witness: the theorem applied at concrete equal inputs. -/
theorem password_encoding_injective_witness :
    List.replicate 12 0 = List.replicate (12 : Nat) (0 : Nat) :=
  password_encoding_injective (List.replicate 12 0) (List.replicate 12 0)
    (by decide) (by decide) (by decide) (by decide) rfl

/-! ## Claim theorem: CPU watchdog -/

/-- C5: absent process → exit 0 and no signal; CPU below the threshold →
no signal and exit 0; CPU at or above the threshold → graceful signal,
5-second grace wait, and forced signal exactly when the process is still
alive after the wait. -/
theorem cpu_watchdog_signal_policy :
    ∀ env : WatchdogEnv,
      (env.processFound = false →
        parentalcontrolsd_terminator env =
          { exitCode := 0, sentTerm := false, sentKill := false, waitedSeconds := 0 }) ∧
      (env.cpuCentiPercent < CPU_LIMIT * 100 →
        (parentalcontrolsd_terminator env).sentTerm = false ∧
        (parentalcontrolsd_terminator env).sentKill = false ∧
        (parentalcontrolsd_terminator env).exitCode = 0) ∧
      (env.processFound = true → CPU_LIMIT * 100 ≤ env.cpuCentiPercent →
        (parentalcontrolsd_terminator env).sentTerm = true ∧
        (parentalcontrolsd_terminator env).waitedSeconds = GRACE_PERIOD_SECONDS ∧
        ((parentalcontrolsd_terminator env).sentKill = true ↔
          env.stillRunningAfterGrace = true)) := by
  intro env
  refine ⟨fun h => ?_, fun hcpu => ?_, fun hpf hcpu => ?_⟩
  · simp [parentalcontrolsd_terminator, h]
  · simp only [parentalcontrolsd_terminator]
    split
    · simp
    · split
      · omega
      · simp
  · simp [parentalcontrolsd_terminator, hpf, hcpu]

/-- C5 witness: the watchdog applied at a present process at 6% CPU that
survives the grace wait. -/
theorem cpu_watchdog_signal_policy_witness :
    (parentalcontrolsd_terminator ⟨true, 600, true⟩).sentTerm = true ∧
    (parentalcontrolsd_terminator ⟨true, 600, true⟩).waitedSeconds = GRACE_PERIOD_SECONDS ∧
    ((parentalcontrolsd_terminator ⟨true, 600, true⟩).sentKill = true ↔
      (WatchdogEnv.mk true 600 true).stillRunningAfterGrace = true) :=
  (cpu_watchdog_signal_policy ⟨true, 600, true⟩).2.2 rfl (by decide)

/-! ## Claim theorem: stage fallback -/

/-- C7: launching with a stage string outside the fixed enumerated set
{alpha, integ, gamma, prod} does not abort: the app falls back to the
production stage and emits exactly one warning log line. -/
theorem stage_fallback_to_prod :
    ∀ (osUsername rawStage : String), rawStage ∉ VALID_STAGES_LIST →
      resolveStageArg osUsername rawStage =
        { stage := STAGES_PROD, warnLines := 1, aborted := false } := by
  intro osU raw hmem
  have hkeys : hasStageKey osU raw = false := by
    simp only [hasStageKey, WEBSITE_DOMAINS, List.map_cons, List.map_nil,
      VALID_STAGES_LIST, List.mem_cons, List.not_mem_nil, or_false, not_or] at hmem ⊢
    rcases hmem with ⟨h1, h2, h3, h4⟩
    simp [List.contains, h1, h2, h3, h4]
  have hprod : hasStageKey osU STAGES_PROD = true := by
    simp [hasStageKey, WEBSITE_DOMAINS, List.contains]
  simp [resolveStageArg, setStage, hkeys, hprod]

/-- C7 witness: the theorem applied at the concrete unrecognized stage
string "Alpha" (wrong case: the match is case-sensitive). -/
theorem stage_fallback_to_prod_witness :
    resolveStageArg "gerritd" "Alpha" =
      { stage := STAGES_PROD, warnLines := 1, aborted := false } :=
  stage_fallback_to_prod "gerritd" "Alpha" (by decide)

/-! ## Claim theorem: exit funnel -/

/-- C3: every intentional termination path of the notifier app goes
through the shared delayed-exit routine (waitAndExit or waitAndQuit) and
never through the immediate-terminate primitive; each of the listed paths
uses the default wait of 1000 ms, which is at least the configured
minimum; and the delay is only ever shorter when a caller passes an
explicit shorter wait. -/
theorem exit_funnel_contract :
    (∀ p : TermPath,
      isImmediate (exitMechOf p) = false ∧
      exitDelayOf (exitMechOf p) = some DEFAULT_EXIT_WAIT ∧
      1000 ≤ DEFAULT_EXIT_WAIT) ∧
    (∀ (errorCode w : Nat), waitAndExit errorCode (some w) = ExitMech.delayedExit errorCode w) ∧
    (∀ w : Nat, waitAndQuit (some w) = ExitMech.delayedQuit w) := by
  refine ⟨?_, fun c w => rfl, fun w => rfl⟩
  intro p
  cases p <;> exact ⟨rfl, rfl, Nat.le_refl 1000⟩

/-! ## Claim theorem: pipe-connection failure handling -/

/-- C6: in developer mode the tolerated causes ENOENT and ETIMEDOUT make
the pipe-readiness promise resolve as ready with no exit scheduled; any
other cause, or any failure outside developer mode, leaves the promise
rejected, reports the pipe-connection-error telemetry event, and routes
through the delayed-exit funnel with the non-zero code 1. -/
theorem pipe_failure_policy :
    ∀ (isDeveloperMode : Bool) (errCode : String),
      (isDeveloperMode = true →
        (errCode = ENOENT_CODE ∨ errCode = ETIMEDOUT_CODE) →
        (whenPipeConnectedFailure isDeveloperMode errCode).resolvedReady = true ∧
        (whenPipeConnectedFailure isDeveloperMode errCode).exits = []) ∧
      ((isDeveloperMode = false ∨ (errCode ≠ ENOENT_CODE ∧ errCode ≠ ETIMEDOUT_CODE)) →
        (whenPipeConnectedFailure isDeveloperMode errCode).resolvedReady = false ∧
        (whenPipeConnectedFailure isDeveloperMode errCode).pipeErrorEventReported = true ∧
        ExitMech.delayedExit 1 DEFAULT_EXIT_WAIT ∈
          (whenPipeConnectedFailure isDeveloperMode errCode).exits) := by
  intro dev errCode
  constructor
  · rintro rfl (rfl | rfl) <;>
      simp [whenPipeConnectedFailure, pipeErrorHandler]
  · intro hfatal
    cases dev
    · simp [whenPipeConnectedFailure, pipeErrorHandler, reportErrorAndExit, waitAndExit,
        waitAndRunDelay, DEFAULT_EXIT_WAIT]
    · rcases hfatal with h | ⟨h1, h2⟩
      · exact absurd h (by simp)
      · have hb1 : (errCode == ENOENT_CODE) = false := by
          simpa using h1
        have hb2 : (errCode == ETIMEDOUT_CODE) = false := by
          simpa using h2
        simp [whenPipeConnectedFailure, pipeErrorHandler, hb1, hb2, reportErrorAndExit,
          waitAndExit, waitAndRunDelay, DEFAULT_EXIT_WAIT]

/-- C6 witness: the fatal branch applied at a concrete non-developer-mode
failure with cause ECONNREFUSED. -/
theorem pipe_failure_policy_witness :
    (whenPipeConnectedFailure false "ECONNREFUSED").resolvedReady = false ∧
    (whenPipeConnectedFailure false "ECONNREFUSED").pipeErrorEventReported = true ∧
    ExitMech.delayedExit 1 DEFAULT_EXIT_WAIT ∈
      (whenPipeConnectedFailure false "ECONNREFUSED").exits :=
  (pipe_failure_policy false "ECONNREFUSED").2 (Or.inl rfl)

/-! ## Claim theorem: readiness AND-join -/

/-- C2: in either interleaving of the pipe-readiness and app-readiness
resolutions, window initialization (initApp) runs exactly once, and it has
not run after any proper prefix of the interleaving — that is, not before
the later of the two signals. -/
theorem readiness_and_join :
    ∀ evs : List RSignal,
      evs = [RSignal.pipeResolve, RSignal.appReady] ∨
      evs = [RSignal.appReady, RSignal.pipeResolve] →
      (joinRun evs).initRuns = 1 ∧
      ∀ k, k < evs.length → (joinRun (evs.take k)).initRuns = 0 := by
  rintro evs (rfl | rfl) <;>
    refine ⟨by decide, fun k hk => ?_⟩ <;>
    · simp only [List.length_cons, List.length_nil] at hk
      interval_cases k <;> decide

/-- C2 witness: the join applied at the concrete interleaving where the
pipe resolves first. -/
theorem readiness_and_join_witness :
    (joinRun [RSignal.pipeResolve, RSignal.appReady]).initRuns = 1 :=
  (readiness_and_join [RSignal.pipeResolve, RSignal.appReady] (Or.inl rfl)).1

/-! ## Claim theorems: missing-username startup validation -/

/-- C8 counterexample: with no username argument the code does report the
event, write the usage string and schedule the delayed exit(1) — but the
check has no return statement, so startup continues, and in the run where
the GUI ready signal fires at 0 ms (before the 1000 ms exit delay has
elapsed) window initialization still runs. This refutes the claim's
"without proceeding to show a window". -/
theorem username_missing_counterexample :
    (usernameCheck none).exitScheduled = some (ExitMech.delayedExit 1 DEFAULT_EXIT_WAIT) ∧
    (usernameCheck none).continuedStartup = true ∧
    initAppRunsBeforeExit (usernameCheck none) 0 = true := by
  decide

/-- C8 amended: launching without a (truthy) username argument reports the
username-not-found telemetry event, writes the usage string to standard
error and schedules termination with the non-zero code 1 through the
delayed-exit funnel; but startup falls through the check and continues, so
window initialization is not prevented before the delayed exit fires. -/
theorem username_missing_reports_and_exits :
    ∀ username : Option String, truthyArg username = false →
      (usernameCheck username).usernameEventReported = true ∧
      (usernameCheck username).usageWritten = true ∧
      (usernameCheck username).exitScheduled = some (waitAndExit 1 none) ∧
      (usernameCheck username).continuedStartup = true := by
  intro u hu
  simp [usernameCheck, hu]

/-- C8 amended witness: the theorem applied at the absent argument. -/
theorem username_missing_reports_and_exits_witness :
    (usernameCheck none).usernameEventReported = true ∧
    (usernameCheck none).usageWritten = true ∧
    (usernameCheck none).exitScheduled = some (waitAndExit 1 none) ∧
    (usernameCheck none).continuedStartup = true :=
  username_missing_reports_and_exits none rfl

/-! ## Lemmas: heartbeat watchdog -/

/-- Once the timer has fired (an exit is scheduled at `ex`) and every
deadline any remaining pulse could arm lies at or beyond `ex`, no further
crash-handling sequence runs before the process exits. -/
theorem hbSim_no_refire (crashDelay : Nat) (ps : List Nat) : ∀ (dl ex crashes : Nat),
    List.Sorted (· ≤ ·) ps → (∀ q ∈ ps, ex ≤ q + HEALTH_CHECK_TIMEOUT) → ex ≤ dl →
    hbSim crashDelay ps (some dl) (some ex) crashes = crashes := by
  induction ps with
  | nil =>
      intro dl ex crashes _ _ hdl
      simp only [hbSim]
      rw [if_neg (by omega)]
  | cons p ps ih =>
      intro dl ex crashes hs hq hdl
      rcases List.sorted_cons.mp hs with ⟨hall, hs'⟩
      simp only [hbSim]
      rw [if_pos hdl]
      by_cases hp : ex ≤ p
      · rw [if_pos hp]
      · rw [if_neg hp]
        exact ih (p + HEALTH_CHECK_TIMEOUT) ex crashes hs'
          (fun q hq' => hq q (List.mem_cons_of_mem _ hq'))
          (hq p (List.mem_cons_self _ _))

/-- On a sorted pulse trace with no exit yet scheduled, the watchdog runs
exactly one crash-handling sequence PROVIDED the sequence settles fast
enough: when crashDelay + DEFAULT_EXIT_WAIT ≤ HEALTH_CHECK_TIMEOUT, the
exit a fire schedules lands no later than any deadline a post-fire pulse
can rearm, so the sequence never repeats. (The counterexample below shows
this bound is load-bearing: a slower settle permits a second sequence.) -/
theorem hbSim_fires_once (crashDelay : Nat)
    (hdelay : crashDelay + DEFAULT_EXIT_WAIT ≤ HEALTH_CHECK_TIMEOUT)
    (ps : List Nat) : ∀ (dl crashes : Nat),
    List.Sorted (· ≤ ·) ps →
    hbSim crashDelay ps (some dl) none crashes = crashes + 1 := by
  induction ps with
  | nil => intro dl crashes _; rfl
  | cons p ps ih =>
      intro dl crashes hs
      rcases List.sorted_cons.mp hs with ⟨hall, hs'⟩
      simp only [hbSim]
      by_cases hfire : dl ≤ p
      · rw [if_pos hfire]
        by_cases hdead : dl + crashDelay + DEFAULT_EXIT_WAIT ≤ p
        · rw [if_pos hdead]
        · rw [if_neg hdead]
          apply hbSim_no_refire crashDelay ps (p + HEALTH_CHECK_TIMEOUT)
            (dl + crashDelay + DEFAULT_EXIT_WAIT) (crashes + 1) hs'
          · intro q hq
            have hpq := hall q hq
            omega
          · omega
      · rw [if_neg hfire]
        exact ih _ _ hs'

/-! ## Claim theorems: heartbeat watchdog -/

/-- C1 counterexample: the claim's "exactly one crash-handling sequence …
never more than once" and "once the timer has fired no further rearm is
honored" fail on the code. crashCallback has no once-only guard and the
pulse handler keeps rearming it after a fire, while the exit is scheduled
only after clearAppData's asynchronous callbacks and the unbounded
reportError HTTP promise settle. Concretely: no pulse arrives before the
initial 90000 ms deadline, so the timer fires at 90000; the crash
sequence's asynchronous completions take 10000 ms, so its exit is
scheduled for 101000; a pulse at 90000 (just after the fire) rearms
crashCallback for 95000, which fires before the exit — a second full
crash-handling sequence runs. -/
theorem heartbeat_watchdog_counterexample :
    hbSim 10000 [90000] (some HEALTH_CHECK_INITIAL_TIMEOUT) none 0 = 2 ∧
    List.Sorted (· ≤ ·) [90000] := by
  constructor
  · decide
  · decide

/-- C1 amended: (i) a pulse arriving strictly before the active deadline
cancels the pending timer and rearms it to pulse time +
HEALTH_CHECK_TIMEOUT, whatever the crash sequence's settle time; (ii) on
every sorted pulse trace exactly one crash-handling sequence — one cache
clear, one reported health-check-failure event, one delayed exit, counted
as one unit by `hbSim` — runs, PROVIDED the sequence's asynchronous
completions settle within HEALTH_CHECK_TIMEOUT − DEFAULT_EXIT_WAIT
(4000 ms) of the fire; without that bound a post-fire pulse can rearm the
unguarded crashCallback and start a second sequence; (iii) once the timer
has fired with the exit scheduled at `ex` and every remaining rearmable
deadline at or past `ex`, no further crash-handling sequence runs. -/
theorem heartbeat_watchdog_contract :
    (∀ (crashDelay p : Nat) (ps : List Nat) (dl crashes : Nat), p < dl →
      hbSim crashDelay (p :: ps) (some dl) none crashes =
        hbSim crashDelay ps (some (p + HEALTH_CHECK_TIMEOUT)) none crashes) ∧
    (∀ (crashDelay : Nat) (pulses : List Nat),
      crashDelay + DEFAULT_EXIT_WAIT ≤ HEALTH_CHECK_TIMEOUT →
      List.Sorted (· ≤ ·) pulses →
      hbSim crashDelay pulses (some HEALTH_CHECK_INITIAL_TIMEOUT) none 0 = 1) ∧
    (∀ (crashDelay : Nat) (ps : List Nat) (dl ex crashes : Nat),
      List.Sorted (· ≤ ·) ps →
      (∀ q ∈ ps, ex ≤ q + HEALTH_CHECK_TIMEOUT) → ex ≤ dl →
      hbSim crashDelay ps (some dl) (some ex) crashes = crashes) := by
  refine ⟨?_, ?_, ?_⟩
  · intro crashDelay p ps dl crashes hlt
    simp only [hbSim]
    rw [if_neg (by omega)]
  · intro crashDelay pulses hdelay hs
    exact hbSim_fires_once crashDelay hdelay pulses HEALTH_CHECK_INITIAL_TIMEOUT 0 hs
  · intro crashDelay ps dl ex crashes hs hq hdl
    exact hbSim_no_refire crashDelay ps dl ex crashes hs hq hdl

/-- C1 witness: the conditional exactly-once property applied at a
concrete sorted pulse trace with the crash sequence settling immediately
(crashDelay 0, within the 4000 ms bound). -/
theorem heartbeat_watchdog_contract_witness :
    hbSim 0 [80000, 84000] (some HEALTH_CHECK_INITIAL_TIMEOUT) none 0 = 1 :=
  heartbeat_watchdog_contract.2.1 0 [80000, 84000] (by decide) (by decide)
